import Mathlib

/-!
Verification of the DocuDepth VS Code extension's change-tracking and
sync-orchestration engine, shallowly embedded from the TypeScript source
(`src/watchers/fileWatcher.ts`, the `CommandHandlers` class, and
`src/api/apiClient.ts`).

JavaScript strings are modelled as `List Char`; the JS string methods
`startsWith`, `endsWith`, `includes` and the char-wise `replace` are
defined below.  A JS `Map` (insertion-ordered, `set` on an existing key
updates the value in place) is modelled as an association list.
-/

namespace DocuDepth

/-- JS strings as character lists. -/
abbrev Str := List Char

/-- JS `s.startsWith(pre)`. -/
def jsStartsWith : Str → Str → Bool
  | _, [] => true
  | [], _ :: _ => false
  | c :: s, p :: ps => c == p && jsStartsWith s ps

/-- JS `s.endsWith(suf)`. -/
def jsEndsWith (s suf : Str) : Bool :=
  jsStartsWith s.reverse suf.reverse

/-- JS `s.includes(sub)`. -/
def jsIncludes : Str → Str → Bool
  | [], sub => jsStartsWith [] sub
  | c :: t, sub => jsStartsWith (c :: t) sub || jsIncludes t sub

/-- JS `relativePath.replace(/\\/g, '/')` (char-wise replacement). -/
def normalizeSlashes (s : Str) : Str :=
  s.map (fun c => if c == '\\' then '/' else c)

/-! ### Data model: `FileChange` (src/types/index.ts) -/

/-- `changeType` of a `FileChange`: 'added' | 'modified' | 'deleted'. -/
inductive ChangeType
  | added
  | modified
  | deleted
deriving DecidableEq, Repr

/-- `FileChange` from src/types/index.ts: path, changeType, optional content. -/
structure FileChange where
  path : Str
  changeType : ChangeType
  content : Option Str
deriving DecidableEq, Repr

/-! ### JS `Map` as an insertion-ordered association list -/

/-- JS `Map.prototype.set`: if the key is present, its value is updated in
place (keeping its insertion position); otherwise the pair is appended. -/
def mapSet (m : List (Str × FileChange)) (k : Str) (v : FileChange) :
    List (Str × FileChange) :=
  if m.any (fun p => p.1 = k) then
    m.map (fun p => if p.1 = k then (k, v) else p)
  else
    m ++ [(k, v)]

/-- Keys of the association list, in insertion order. -/
def mapKeys (m : List (Str × FileChange)) : List Str :=
  m.map Prod.fst

/-- JS `Map.prototype.values()`, in insertion order. -/
def mapValues (m : List (Str × FileChange)) : List FileChange :=
  m.map Prod.snd

/-! ### `FileWatcher` state (src/watchers/fileWatcher.ts) -/

/-- The mutable fields of the `FileWatcher` class: the three disposables
are modelled as booleans (subscribed or not), the debounce timer handle as
a boolean (a flush is scheduled or not), and `pendingChanges` as an
insertion-ordered association list. -/
structure WatcherState where
  saveListener : Bool
  createWatcher : Bool
  deleteWatcher : Bool
  pendingChanges : List (Str × FileChange)
  debounceTimer : Bool
deriving DecidableEq, Repr

/-- `FileWatcher.start`: installs the save listener and the two file
system watchers (the callback itself lives outside the state). -/
def watcherStart (st : WatcherState) : WatcherState :=
  { st with saveListener := true, createWatcher := true, deleteWatcher := true }

/-- `FileWatcher.stop`: disposes the listeners, clears the debounce timer
and clears the pending-changes map. -/
def watcherStop (_st : WatcherState) : WatcherState :=
  { saveListener := false
    createWatcher := false
    deleteWatcher := false
    pendingChanges := []
    debounceTimer := false }

/-- `FileWatcher.getPendingCount`. -/
def getPendingCount (st : WatcherState) : Nat :=
  st.pendingChanges.length

/-- `FileWatcher.hasPendingChanges`. -/
def hasPendingChanges (st : WatcherState) : Bool :=
  st.pendingChanges.length > 0

/-! ### Ignore list (`FileWatcher.shouldIgnore`) -/

/-- The `ignoredPatterns` array literal. -/
def ignoredPatterns : List Str :=
  [ "node_modules".data
  , ".git".data
  , ".docudepth".data
  , "dist".data
  , "build".data
  , "out".data
  , ".next".data
  , ".nuxt".data
  , "__pycache__".data
  , ".pytest_cache".data
  , "venv".data
  , ".venv".data
  , "target".data
  , ".idea".data
  , ".vscode".data
  , "*.log".data
  , "*.lock".data
  , "package-lock.json".data
  , "yarn.lock".data
  , "pnpm-lock.yaml".data ]

/-- One iteration of the pattern loop in `shouldIgnore`:
`pattern.startsWith('*')` selects the wildcard branch, which tests the
extension `pattern.slice(1)` as a suffix; otherwise the four
whole-segment positions are tested. -/
def matchesPattern (normalizedPath pattern : Str) : Bool :=
  if pattern.head? = some '*' then
    jsEndsWith normalizedPath pattern.tail
  else
    jsStartsWith normalizedPath (pattern ++ ['/'])
      || normalizedPath == pattern
      || jsIncludes normalizedPath ('/' :: (pattern ++ ['/']))
      || jsEndsWith normalizedPath ('/' :: pattern)

/-- `FileWatcher.shouldIgnore`. -/
def shouldIgnore (relativePath : Str) : Bool :=
  let normalizedPath := normalizeSlashes relativePath
  ignoredPatterns.any (fun pattern => matchesPattern normalizedPath pattern)

/-! ### Event handlers -/

/-- `FileWatcher.scheduleCallback`: clears any previous timer and arms a
new one; modelled as the timer flag being set. -/
def scheduleCallback (st : WatcherState) : WatcherState :=
  { st with debounceTimer := true }

/-- `FileWatcher.handleSave`: skip ignored paths and files over 100 KiB,
otherwise record a `modified` change with the saved content and arm the
debounce timer. -/
def handleSave (st : WatcherState) (relativePath : Str) (content : Str) :
    WatcherState :=
  if shouldIgnore relativePath then st
  else if content.length > 100 * 1024 then st
  else
    scheduleCallback
      { st with
        pendingChanges :=
          mapSet st.pendingChanges relativePath
            ⟨relativePath, ChangeType.modified, some content⟩ }

/-- The `changeType` parameter of `handleFileSystemChange`:
'added' | 'deleted'. -/
inductive FsChangeKind
  | added
  | deleted
deriving DecidableEq, Repr

/-- `FileWatcher.handleFileSystemChange`: skip ignored paths; for `added`
the content read may fail (`none`, the event is skipped) and oversized
files are skipped; for `deleted` no content is read.  Otherwise record
the change and arm the debounce timer. -/
def handleFileSystemChange (st : WatcherState) (relativePath : Str)
    (changeType : FsChangeKind) (readResult : Option Str) : WatcherState :=
  if shouldIgnore relativePath then st
  else
    match changeType with
    | FsChangeKind.added =>
      match readResult with
      | none => st
      | some content =>
        if content.length > 100 * 1024 then st
        else
          scheduleCallback
            { st with
              pendingChanges :=
                mapSet st.pendingChanges relativePath
                  ⟨relativePath, ChangeType.added, some content⟩ }
    | FsChangeKind.deleted =>
      scheduleCallback
        { st with
          pendingChanges :=
            mapSet st.pendingChanges relativePath
              ⟨relativePath, ChangeType.deleted, none⟩ }

/-- `FileWatcher.flushChanges`: when the pending map is empty nothing
happens and the callback is not invoked (`none`); otherwise the values
are snapshotted in insertion order, the map is cleared and the snapshot
is handed to the callback (`some batch`). -/
def flushChangesRun (st : WatcherState) :
    WatcherState × Option (List FileChange) :=
  if st.pendingChanges.length = 0 then (st, none)
  else ({ st with pendingChanges := [] }, some (mapValues st.pendingChanges))

/-! ### Status bar states (src/config/constants.ts) -/

/-- `StatusBarState` enum from src/config/constants.ts. -/
inductive StatusBarState
  | not_authenticated
  | needs_init
  | generating
  | synced
  | changes_pending
  | error
deriving DecidableEq, Repr

/-! ### Local cache store (`CommandHandlers.saveContextMapLocally`) -/

/-- The context map artifact; `version` is the field read when writing
metadata, the rest of the document is opaque (`body`). -/
structure ContextMap where
  version : Str
  body : Str
deriving DecidableEq, Repr

/-- The metadata document written to `.docudepth/metadata.json`:
`{contextMapId, lastUpdated, version}`. -/
structure StoredMetadata where
  contextMapId : Option Str
  lastUpdated : Str
  version : Str
deriving DecidableEq, Repr

/-- The on-disk cache directory: the contents of `context-map.json` and
`metadata.json` (`none` = file absent). -/
structure Store where
  contextMapFile : Option ContextMap
  metadataFile : Option StoredMetadata
deriving DecidableEq, Repr

/-- One `fs.writeFileSync` performed by `saveContextMapLocally`. -/
inductive WriteOp
  | writeContextMap (cm : ContextMap)
  | writeMetadata (m : StoredMetadata)
deriving DecidableEq, Repr

/-- Apply one write to the store. -/
def applyWrite (store : Store) : WriteOp → Store
  | WriteOp.writeContextMap cm => { store with contextMapFile := some cm }
  | WriteOp.writeMetadata m => { store with metadataFile := some m }

/-- Apply a sequence of writes in order. -/
def applyWrites (store : Store) (ws : List WriteOp) : Store :=
  ws.foldl applyWrite store

/-- The mutable fields of `CommandHandlers` relevant to sync: the current
context map id, the in-memory artifact, and the status bar.  (The class
has no field recording whether a sync cycle is in flight.) -/
structure HandlerState where
  currentContextMapId : Option Str
  currentContextMap : Option ContextMap
  statusBar : StatusBarState
deriving DecidableEq, Repr

/-- The two sequential writes performed by `saveContextMapLocally`: the
artifact first, then the metadata (built from `this.currentContextMapId`,
the current time and the artifact's version).  There is no temporary file
or atomic rename. -/
def saveWrites (st : HandlerState) (cm : ContextMap) (now : Str) :
    List WriteOp :=
  [ WriteOp.writeContextMap cm
  , WriteOp.writeMetadata ⟨st.currentContextMapId, now, cm.version⟩ ]

/-- `CommandHandlers.saveContextMapLocally` run to completion. -/
def saveContextMapLocally (st : HandlerState) (store : Store)
    (cm : ContextMap) (now : Str) : Store :=
  applyWrites store (saveWrites st cm now)

/-- The store observed if the process crashes after the first `k` writes
of `saveContextMapLocally`. -/
def saveCrash (st : HandlerState) (store : Store) (cm : ContextMap)
    (now : Str) (k : Nat) : Store :=
  applyWrites store ((saveWrites st cm now).take k)

/-! ### Configuration (`vscode.workspace.getConfiguration('docudepth')`) -/

/-- The configuration keys read by `handleFileChanges`; `get` returning
`undefined` is `none`. -/
structure DocudepthConfig where
  autoSync : Bool
  maxFilesPerBatch : Option Nat
deriving DecidableEq, Repr

/-- JS `config.get<number>('maxFilesPerBatch') || 50`: `undefined` and 0
are falsy, so both fall back to 50. -/
def getMaxFiles (cfg : DocudepthConfig) : Nat :=
  match cfg.maxFilesPerBatch with
  | none => 50
  | some n => if n = 0 then 50 else n

/-! ### `CommandHandlers.handleFileChanges` -/

/-- The result of the awaited `apiClient.updateContextMap` call: it
either fulfills with a response carrying the updated context map, or
rejects with an error message (network error, HTTP error body, ...). -/
inductive UpdateOutcome
  | success (cm : ContextMap)
  | failure (errorMessage : Str)
deriving DecidableEq, Repr

/-- The catch block's classification: a notification is shown only when
the error message contains 'not found' or 'Unauthorized'. -/
def notifiesOnError (errorMessage : Str) : Bool :=
  jsIncludes errorMessage "not found".data
    || jsIncludes errorMessage "Unauthorized".data

/-- Everything `handleFileChanges` produces: the updated handler state,
the updated store, the list of changes actually submitted to
`updateContextMap` (`none` if no call was made), and the user-visible
error notifications shown. -/
structure HandleResult where
  state : HandlerState
  store : Store
  submitted : Option (List FileChange)
  notifications : List Str
deriving DecidableEq, Repr

/-- `CommandHandlers.handleFileChanges`: bail out when there is no
context map id, auto-sync is off, or no auth token; otherwise submit
`changes.slice(0, maxFiles)`.  On success store the returned map and save
it locally; on failure set the status bar to error and notify only for
permanent errors.  Nothing is ever put back into the watcher's pending
map.  (A workspace folder is assumed open, as it must be for the watcher
to be running.) -/
def handleFileChanges (st : HandlerState) (store : Store)
    (cfg : DocudepthConfig) (idToken : Option Str) (now : Str)
    (changes : List FileChange) (outcome : UpdateOutcome) : HandleResult :=
  match st.currentContextMapId with
  | none => ⟨st, store, none, []⟩
  | some _ =>
    if !cfg.autoSync then ⟨st, store, none, []⟩
    else
      match idToken with
      | none => ⟨st, store, none, []⟩
      | some _ =>
        let maxFiles := getMaxFiles cfg
        let filesToUpdate := changes.take maxFiles
        let st1 := { st with statusBar := StatusBarState.changes_pending }
        match outcome with
        | UpdateOutcome.success cm =>
          let st2 := { st1 with currentContextMap := some cm }
          let store2 := saveContextMapLocally st2 store cm now
          ⟨{ st2 with statusBar := StatusBarState.synced }, store2,
            some filesToUpdate, []⟩
        | UpdateOutcome.failure msg =>
          let st2 := { st1 with statusBar := StatusBarState.error }
          if notifiesOnError msg then
            ⟨st2, store, some filesToUpdate,
              ["DocuDepth sync error: ".data ++ msg]⟩
          else
            ⟨st2, store, some filesToUpdate, []⟩

/-- One debounce-fired flush cycle: `FileWatcher.flushChanges` hands the
snapshot to the callback, which is `CommandHandlers.handleFileChanges`.
If the pending map is empty the callback is not invoked. -/
def syncCycle (wst : WatcherState) (st : HandlerState) (store : Store)
    (cfg : DocudepthConfig) (idToken : Option Str) (now : Str)
    (outcome : UpdateOutcome) : WatcherState × HandleResult :=
  match flushChangesRun wst with
  | (wst2, none) => (wst2, ⟨st, store, none, []⟩)
  | (wst2, some changes) =>
    (wst2, handleFileChanges st store cfg idToken now changes outcome)

/-! ### Concurrency model for sync cycles -/

/-- Whether an invocation of `handleFileChanges` reaches the
`updateContextMap` call.  This is exactly the three guards at the top of
the method; `CommandHandlers` has no in-flight flag, so the decision is
independent of any currently outstanding cycle. -/
def startsSubmission (st : HandlerState) (cfg : DocudepthConfig)
    (idToken : Option Str) : Bool :=
  st.currentContextMapId.isSome && cfg.autoSync && idToken.isSome

/-- Events of the single-threaded event loop that touch the sync engine:
a debounce timer fires a flush (invoking `handleFileChanges`), or one
outstanding `updateContextMap` promise settles. -/
inductive SyncEvent
  | flushFired
  | callResolved
deriving DecidableEq, Repr

/-- The number of outstanding `updateContextMap` calls after a sequence
of events, starting from `n` outstanding: a fired flush whose guards pass
immediately issues another submission (there is no queueing or mutual
exclusion in the code); a settled promise retires one. -/
def outstandingAfter (st : HandlerState) (cfg : DocudepthConfig)
    (idToken : Option Str) : List SyncEvent → Nat → Nat
  | [], n => n
  | SyncEvent.flushFired :: es, n =>
    outstandingAfter st cfg idToken es
      (if startsSubmission st cfg idToken then n + 1 else n)
  | SyncEvent.callResolved :: es, n =>
    outstandingAfter st cfg idToken es (n - 1)

/-! ### `CommandHandlers.pollForCompletion` -/

/-- The loop constants of `pollForCompletion`. -/
def pollIntervalMs : Nat := 2000

/-- The attempt bound of `pollForCompletion` (≈ 30 minutes). -/
def pollMaxAttempts : Nat := 900

/-- A status response from `apiClient.getStatus`. -/
structure StatusResponse where
  status : Str
  progress_percentage : Nat
  progress_message : Str
  error_message : Option Str
deriving DecidableEq, Repr

/-- The result of one awaited `getStatus` call: a response, or a
rejection (network error / HTTP error thrown by `ApiClient.request`). -/
inductive PollStep
  | ok (s : StatusResponse)
  | netError (msg : Str)
deriving DecidableEq, Repr

/-- How `pollForCompletion` finished: it returned normally (status
'completed' observed), or an `Error` with the given message propagated
out of it. -/
inductive PollOutcome
  | returned
  | threw (msg : Str)
deriving DecidableEq, Repr

/-- JS `status.error_message || 'Generation failed'` (undefined and the
empty string are falsy). -/
def jsErrorOrDefault : Option Str → Str
  | none => "Generation failed".data
  | some m => if m.isEmpty then "Generation failed".data else m

/-- Observable behaviour of a `pollForCompletion` run: how it finished,
the `onProgress` reports made (in order), the number of `getStatus`
calls issued, and the total time slept. -/
structure PollRun where
  outcome : PollOutcome
  reports : List (Nat × Str)
  calls : Nat
  elapsedMs : Nat
deriving DecidableEq, Repr

/-- The `for` loop of `pollForCompletion`, with `i` the attempt index and
the second argument the remaining attempts.  Each iteration sleeps
`pollIntervalMs`, awaits `getStatus(i)` (a rejection propagates,
aborting the loop), reports progress, then returns on 'completed',
throws the remote message on 'failed', and otherwise loops.  Exhausting
the bound throws 'Generation timed out'. -/
def pollLoop (oracle : Nat → PollStep) : Nat → Nat → PollRun
  | _, 0 => ⟨PollOutcome.threw "Generation timed out".data, [], 0, 0⟩
  | i, rem + 1 =>
    match oracle i with
    | PollStep.netError msg => ⟨PollOutcome.threw msg, [], 1, pollIntervalMs⟩
    | PollStep.ok s =>
      let report := (s.progress_percentage, s.progress_message)
      if s.status == "completed".data then
        ⟨PollOutcome.returned, [report], 1, pollIntervalMs⟩
      else if s.status == "failed".data then
        ⟨PollOutcome.threw (jsErrorOrDefault s.error_message), [report], 1,
          pollIntervalMs⟩
      else
        let rest := pollLoop oracle (i + 1) rem
        ⟨rest.outcome, report :: rest.reports, rest.calls + 1,
          pollIntervalMs + rest.elapsedMs⟩

/-- `CommandHandlers.pollForCompletion`, with the sequence of `getStatus`
results supplied as an oracle indexed by attempt number. -/
def pollForCompletion (oracle : Nat → PollStep) : PollRun :=
  pollLoop oracle 0 pollMaxAttempts

/-! ### Concrete values used in tests and counterexamples -/

/-- The empty cache directory. -/
def emptyStore : Store := ⟨none, none⟩

/-- A pending change for `a.ts`. -/
def demoChangeA : FileChange := ⟨"a.ts".data, ChangeType.modified, some "A".data⟩

/-- A pending change for `b.ts`. -/
def demoChangeB : FileChange := ⟨"b.ts".data, ChangeType.modified, some "B".data⟩

/-- A pending change for `c.ts`. -/
def demoChangeC : FileChange := ⟨"c.ts".data, ChangeType.modified, some "C".data⟩

/-- A running watcher with three distinct pending paths. -/
def demoWatcher3 : WatcherState :=
  ⟨true, true, true,
    [ ("a.ts".data, demoChangeA)
    , ("b.ts".data, demoChangeB)
    , ("c.ts".data, demoChangeC) ], true⟩

/-- A running watcher with one pending path. -/
def demoWatcher1 : WatcherState :=
  ⟨true, true, true, [("a.ts".data, demoChangeA)], true⟩

/-- A handler that has completed an initial sync for job `job-1`. -/
def demoHandler : HandlerState :=
  ⟨some "job-1".data, none, StatusBarState.synced⟩

/-- Configuration with auto-sync on and `maxFilesPerBatch = 2`. -/
def demoCfg2 : DocudepthConfig := ⟨true, some 2⟩

/-- Configuration with auto-sync on and the default batch size. -/
def demoCfgDefault : DocudepthConfig := ⟨true, none⟩

/-- A present auth token. -/
def demoToken : Option Str := some "tok".data

/-- A timestamp. -/
def demoNow : Str := "2026-01-01T00:00:00Z".data

/-- The artifact returned by a successful update. -/
def demoMap : ContextMap := ⟨"2".data, "new-context-map".data⟩

/-- The previously cached artifact. -/
def oldMap : ContextMap := ⟨"1".data, "old-context-map".data⟩

/-- The previously written metadata, claiming job `job-1`. -/
def oldMeta : StoredMetadata :=
  ⟨some "job-1".data, "2025-12-31T00:00:00Z".data, "1".data⟩

/-- A cache directory holding the previous fully-written pair. -/
def demoStoreOld : Store := ⟨some oldMap, some oldMeta⟩

/-- A handler mid-initialization: a fresh job `job-2` has been submitted
and its artifact fetched, while the cache still holds the `job-1` pair. -/
def demoHandlerJob2 : HandlerState :=
  ⟨some "job-2".data, some oldMap, StatusBarState.generating⟩

/-- A `getStatus` response with terminal status 'completed'. -/
def completedStatus : StatusResponse :=
  ⟨"completed".data, 100, "Done".data, none⟩

/-- A `getStatus` response with non-terminal status 'processing'. -/
def processingStatus : StatusResponse :=
  ⟨"processing".data, 50, "Analyzing codebase...".data, none⟩

/-- A poll oracle whose first call rejects with a network error and whose
later calls would report completion. -/
def netFailThenComplete : Nat → PollStep
  | 0 => PollStep.netError "Network error: fetch failed".data
  | _ + 1 => PollStep.ok completedStatus

/-! ### Claim C10 -/

/-- C10: `FileWatcher.stop` disposes the save listener and both file
system watchers, cancels any scheduled debounce flush, and clears the
pending-changes map, so every accumulated-but-unflushed change is
discarded and never handed to the flush callback; afterwards
`getPendingCount` returns 0 and `hasPendingChanges` returns false. -/
theorem c10_stop_discards_pending (st : WatcherState) :
    getPendingCount (watcherStop st) = 0 ∧
    hasPendingChanges (watcherStop st) = false ∧
    (watcherStop st).pendingChanges = [] ∧
    (watcherStop st).debounceTimer = false ∧
    (watcherStop st).saveListener = false ∧
    (watcherStop st).createWatcher = false ∧
    (watcherStop st).deleteWatcher = false ∧
    (flushChangesRun (watcherStop st)).2 = none := by
  refine ⟨rfl, rfl, rfl, rfl, rfl, rfl, rfl, ?_⟩
  simp [flushChangesRun, watcherStop]

/-! ### Claim C4 -/

/-- C4 counterexample: `saveContextMapLocally` writes the artifact and
the metadata with two separate sequential writes and no atomic
promotion.  Crashing after the first write (during an initialization for
job `job-2` over a cache written for job `job-1`) leaves the store
pairing the new artifact with the old metadata, which claims jobId
`job-1` even though the artifact was generated for `job-2`. -/
theorem c4_counterexample :
    saveCrash demoHandlerJob2 demoStoreOld demoMap demoNow 1
        = ⟨some demoMap, some oldMeta⟩ ∧
    demoHandlerJob2.currentContextMapId = some "job-2".data ∧
    oldMeta.contextMapId = some "job-1".data ∧
    some "job-1".data ≠ demoHandlerJob2.currentContextMapId := by
  decide

/-- C4 amended: the cache write is not crash-atomic.  The two writes are
sequential, artifact first and metadata second; a crash observing a
prefix of the writes yields either the previous store, the new artifact
paired with the previous metadata (whose jobId may differ from the job
the artifact was generated for), or the new fully-written pair. -/
theorem c4_amended_write_sequence (st : HandlerState) (store : Store)
    (cm : ContextMap) (now : Str) :
    saveCrash st store cm now 0 = store ∧
    saveCrash st store cm now 1 = { store with contextMapFile := some cm } ∧
    (∀ k, 2 ≤ k → saveCrash st store cm now k =
      ⟨some cm, some ⟨st.currentContextMapId, now, cm.version⟩⟩) := by
  refine ⟨rfl, rfl, ?_⟩
  intro k hk
  have htake : (saveWrites st cm now).take k = saveWrites st cm now :=
    List.take_of_length_le (by simp [saveWrites]; omega)
  unfold saveCrash
  rw [htake]
  rfl

/-- C4 amended, witnessed at the concrete crash scenario with `k = 2`. -/
theorem c4_amended_witness :
    2 ≤ 2 ∧
    saveCrash demoHandlerJob2 demoStoreOld demoMap demoNow 2 =
      ⟨some demoMap,
        some ⟨demoHandlerJob2.currentContextMapId, demoNow, demoMap.version⟩⟩ :=
  ⟨by decide,
    (c4_amended_write_sequence demoHandlerJob2 demoStoreOld demoMap demoNow).2.2
      2 (by decide)⟩

/-! ### Claim C5 -/

/-- C5 counterexample: `pollForCompletion` does not wrap the awaited
`getStatus` call in any try/catch, so a network failure of a single poll
aborts the whole loop at once: with an oracle whose first call rejects
and whose second call would report completion, the run makes exactly one
call, reports no progress, and propagates the network error — it never
reaches the completion that the next attempt would have returned. -/
theorem c5_counterexample :
    pollForCompletion netFailThenComplete
        = ⟨PollOutcome.threw "Network error: fetch failed".data, [], 1,
            pollIntervalMs⟩ ∧
    netFailThenComplete 1 = PollStep.ok completedStatus := by
  exact ⟨rfl, rfl⟩

/-- C5 amended: a failed `getStatus` poll call aborts the polling loop
immediately: the rejection propagates out of `pollForCompletion` as-is,
after exactly one call of the current attempt and with no progress
report, regardless of how many attempts remain. -/
theorem c5_amended_poll_error_aborts (oracle : Nat → PollStep)
    (i rem : Nat) (msg : Str) (h : oracle i = PollStep.netError msg) :
    pollLoop oracle i (rem + 1)
      = ⟨PollOutcome.threw msg, [], 1, pollIntervalMs⟩ := by
  simp [pollLoop, h]

/-- C5 amended, witnessed on the concrete failing oracle with the full
attempt budget. -/
theorem c5_amended_witness :
    pollLoop netFailThenComplete 0 (899 + 1)
      = ⟨PollOutcome.threw "Network error: fetch failed".data, [], 1,
          pollIntervalMs⟩ :=
  c5_amended_poll_error_aborts netFailThenComplete 0 899
    "Network error: fetch failed".data rfl

/-! ### Helper lemmas about `handleFileChanges` and `syncCycle` -/

set_option linter.unnecessarySeqFocus false in
/-- What `handleFileChanges` submits: the guards are exactly
`startsSubmission`, and the submitted list is `changes.slice(0, maxFiles)`. -/
theorem handleFileChanges_submitted (st : HandlerState) (store : Store)
    (cfg : DocudepthConfig) (tok : Option Str) (now : Str)
    (changes : List FileChange) (outcome : UpdateOutcome) :
    (handleFileChanges st store cfg tok now changes outcome).submitted
      = if startsSubmission st cfg tok = true then
          some (changes.take (getMaxFiles cfg))
        else none := by
  unfold handleFileChanges startsSubmission
  cases st.currentContextMapId <;> cases tok <;> cases hs : cfg.autoSync <;>
    cases outcome <;> simp [hs] <;> (try split) <;> rfl

/-- `handleFileChanges` on a failed update: status bar set to error, the
store untouched, the truncated batch was submitted, and a notification
is shown exactly when the message matches the permanent-error substrings. -/
theorem handleFileChanges_failure (st : HandlerState) (store : Store)
    (cfg : DocudepthConfig) (tok : Option Str) (now : Str)
    (changes : List FileChange) (msg : Str)
    (hid : st.currentContextMapId.isSome = true) (hsync : cfg.autoSync = true)
    (htok : tok.isSome = true) :
    handleFileChanges st store cfg tok now changes (UpdateOutcome.failure msg)
      = ⟨{ st with statusBar := StatusBarState.error }, store,
          some (changes.take (getMaxFiles cfg)),
          if notifiesOnError msg = true then
            ["DocuDepth sync error: ".data ++ msg]
          else []⟩ := by
  obtain ⟨j, hj⟩ := Option.isSome_iff_exists.mp hid
  obtain ⟨t, ht⟩ := Option.isSome_iff_exists.mp htok
  unfold handleFileChanges
  rw [hj, ht]
  simp only [hsync, Bool.not_true, Bool.false_eq_true, if_false]
  split <;> rfl

/-- `handleFileChanges` on a successful update: the returned map is
stored in memory, both cache files are rewritten, the truncated batch
was submitted, and no notification is shown. -/
theorem handleFileChanges_success (st : HandlerState) (store : Store)
    (cfg : DocudepthConfig) (tok : Option Str) (now : Str)
    (changes : List FileChange) (cm : ContextMap)
    (hid : st.currentContextMapId.isSome = true) (hsync : cfg.autoSync = true)
    (htok : tok.isSome = true) :
    handleFileChanges st store cfg tok now changes (UpdateOutcome.success cm)
      = ⟨{ st with currentContextMap := some cm, statusBar := StatusBarState.synced },
          ⟨some cm, some ⟨st.currentContextMapId, now, cm.version⟩⟩,
          some (changes.take (getMaxFiles cfg)), []⟩ := by
  obtain ⟨j, hj⟩ := Option.isSome_iff_exists.mp hid
  obtain ⟨t, ht⟩ := Option.isSome_iff_exists.mp htok
  unfold handleFileChanges
  rw [hj, ht]
  simp only [hsync, Bool.not_true, Bool.false_eq_true, if_false]
  rfl

/-- A flush over a non-empty pending map clears the map and hands the
snapshot, in insertion order, to `handleFileChanges`. -/
theorem syncCycle_nonempty (wst : WatcherState) (st : HandlerState)
    (store : Store) (cfg : DocudepthConfig) (tok : Option Str) (now : Str)
    (outcome : UpdateOutcome) (hne : wst.pendingChanges ≠ []) :
    syncCycle wst st store cfg tok now outcome
      = ({ wst with pendingChanges := [] },
          handleFileChanges st store cfg tok now
            (mapValues wst.pendingChanges) outcome) := by
  have hlen : ¬(wst.pendingChanges.length = 0) := by
    simpa [List.length_eq_zero] using hne
  unfold syncCycle flushChangesRun
  rw [if_neg hlen]

/-! ### Claim C3 -/

/-- C3 counterexample: two flushes firing while the first cycle's
submission is still outstanding yield two concurrent outstanding
submissions, refuting "at most one remote submission is outstanding at
any instant"; and `handleFileChanges` reaches the submit call in a
synced state, whatever else is in flight. -/
theorem c3_counterexample :
    outstandingAfter demoHandler demoCfgDefault demoToken
        [SyncEvent.flushFired, SyncEvent.flushFired] 0 = 2 ∧
    ((handleFileChanges demoHandler emptyStore demoCfgDefault demoToken
        demoNow [demoChangeA]
        (UpdateOutcome.failure "Network error: fetch failed".data)).submitted).isSome
      = true := by
  decide

/-- C3 amended: no mutual exclusion is enforced.  `CommandHandlers` has
no in-flight flag: `handleFileChanges` reaches the `updateContextMap`
call whenever the id/auto-sync/token guards pass, independent of any
outstanding cycle, so a flush that becomes ready while `n` submissions
are outstanding immediately makes it `n + 1` instead of being deferred. -/
theorem c3_amended_no_mutual_exclusion (st : HandlerState)
    (cfg : DocudepthConfig) (tok : Option Str) (n : Nat)
    (h : startsSubmission st cfg tok = true) :
    outstandingAfter st cfg tok [SyncEvent.flushFired] n = n + 1 ∧
    (∀ store now changes outcome,
      ((handleFileChanges st store cfg tok now changes outcome).submitted).isSome
        = true) := by
  constructor
  · simp [outstandingAfter, h]
  · intro store now changes outcome
    rw [handleFileChanges_submitted, if_pos h]
    rfl

/-- C3 amended, witnessed with one cycle already in flight. -/
theorem c3_amended_witness :
    outstandingAfter demoHandler demoCfgDefault demoToken
        [SyncEvent.flushFired] 1 = 1 + 1 ∧
    ((handleFileChanges demoHandler emptyStore demoCfgDefault demoToken
        demoNow [demoChangeA] (UpdateOutcome.success demoMap)).submitted).isSome
      = true :=
  ⟨(c3_amended_no_mutual_exclusion demoHandler demoCfgDefault demoToken 1
      (by decide)).1,
    (c3_amended_no_mutual_exclusion demoHandler demoCfgDefault demoToken 1
      (by decide)).2 emptyStore demoNow [demoChangeA]
      (UpdateOutcome.success demoMap)⟩

/-! ### Claim C1 -/

/-- C1 counterexample: with `maxFilesPerBatch = 2` and three distinct
pending paths, the first flush ships exactly the first two changes, but
the pending map is cleared entirely — the third change is not retained —
and the next flush ships nothing: the overflow change is lost, contrary
to the claimed carry-over. -/
theorem c1_counterexample :
    let r1 := syncCycle demoWatcher3 demoHandler emptyStore demoCfg2
      demoToken demoNow (UpdateOutcome.success demoMap)
    let r2 := syncCycle r1.1 r1.2.state r1.2.store demoCfg2 demoToken
      demoNow (UpdateOutcome.success demoMap)
    r1.2.submitted = some [demoChangeA, demoChangeB] ∧
    r1.1.pendingChanges = [] ∧
    r2.2.submitted = none := by
  decide

/-- C1 amended: when a flush fires, `flushChanges` hands over all
pending changes and clears the map; `handleFileChanges` then submits
only the first `maxFilesPerBatch` (default 50) in insertion order and
the remainder is dropped, not retained — nothing is left for a
subsequent flush cycle. -/
theorem c1_amended_overflow_dropped (wst : WatcherState) (st : HandlerState)
    (store : Store) (cfg : DocudepthConfig) (tok : Option Str) (now : Str)
    (outcome : UpdateOutcome) (hne : wst.pendingChanges ≠ [])
    (hid : st.currentContextMapId.isSome = true) (hsync : cfg.autoSync = true)
    (htok : tok.isSome = true) :
    (syncCycle wst st store cfg tok now outcome).2.submitted
        = some ((mapValues wst.pendingChanges).take (getMaxFiles cfg)) ∧
    (syncCycle wst st store cfg tok now outcome).1.pendingChanges = [] := by
  rw [syncCycle_nonempty wst st store cfg tok now outcome hne]
  refine ⟨?_, rfl⟩
  rw [handleFileChanges_submitted]
  simp [startsSubmission, hid, hsync, htok]

/-- C1 amended, witnessed on the three-pending-paths scenario. -/
theorem c1_amended_witness :
    (syncCycle demoWatcher3 demoHandler emptyStore demoCfg2 demoToken
        demoNow (UpdateOutcome.success demoMap)).2.submitted
      = some ((mapValues demoWatcher3.pendingChanges).take
          (getMaxFiles demoCfg2)) ∧
    (syncCycle demoWatcher3 demoHandler emptyStore demoCfg2 demoToken
        demoNow (UpdateOutcome.success demoMap)).1.pendingChanges = [] :=
  c1_amended_overflow_dropped demoWatcher3 demoHandler emptyStore demoCfg2
    demoToken demoNow (UpdateOutcome.success demoMap) (by decide) (by decide)
    (by decide) (by decide)

/-! ### Claim C2 -/

/-- C2 counterexample: a transient network failure of the incremental
update does not restore the consumed change: after the failed cycle the
pending map is empty, and the next flush cycle submits nothing — the
change is lost instead of being retried. -/
theorem c2_counterexample :
    let r1 := syncCycle demoWatcher1 demoHandler emptyStore demoCfgDefault
      demoToken demoNow
      (UpdateOutcome.failure "Network error: fetch failed".data)
    let r2 := syncCycle r1.1 r1.2.state r1.2.store demoCfgDefault demoToken
      demoNow (UpdateOutcome.success demoMap)
    r1.2.submitted = some [demoChangeA] ∧
    r1.1.pendingChanges = [] ∧
    r2.2.submitted = none := by
  decide

/-- C2 amended: on a failed incremental update the consumed
PendingChanges are not restored — the pending map stays cleared and the
changes are lost; the catch block only sets the status bar to error,
leaves the cache untouched, and (for non-permanent messages) shows no
notification. -/
theorem c2_amended_no_restore (wst : WatcherState) (st : HandlerState)
    (store : Store) (cfg : DocudepthConfig) (tok : Option Str) (now : Str)
    (msg : Str) (hne : wst.pendingChanges ≠ [])
    (hid : st.currentContextMapId.isSome = true) (hsync : cfg.autoSync = true)
    (htok : tok.isSome = true) :
    (syncCycle wst st store cfg tok now (UpdateOutcome.failure msg)).1.pendingChanges
        = [] ∧
    (syncCycle wst st store cfg tok now (UpdateOutcome.failure msg)).2.state.statusBar
        = StatusBarState.error ∧
    (syncCycle wst st store cfg tok now (UpdateOutcome.failure msg)).2.store
        = store ∧
    (notifiesOnError msg = false →
      (syncCycle wst st store cfg tok now (UpdateOutcome.failure msg)).2.notifications
        = []) := by
  rw [syncCycle_nonempty wst st store cfg tok now (UpdateOutcome.failure msg) hne]
  rw [handleFileChanges_failure st store cfg tok now
    (mapValues wst.pendingChanges) msg hid hsync htok]
  refine ⟨rfl, rfl, rfl, ?_⟩
  intro hmsg
  simp [hmsg]

/-- C2 amended, witnessed on the single-pending-change transient
failure. -/
theorem c2_amended_witness :
    (syncCycle demoWatcher1 demoHandler emptyStore demoCfgDefault demoToken
        demoNow (UpdateOutcome.failure "Network error: fetch failed".data)).1.pendingChanges
      = [] ∧
    (syncCycle demoWatcher1 demoHandler emptyStore demoCfgDefault demoToken
        demoNow (UpdateOutcome.failure "Network error: fetch failed".data)).2.state.statusBar
      = StatusBarState.error ∧
    (syncCycle demoWatcher1 demoHandler emptyStore demoCfgDefault demoToken
        demoNow (UpdateOutcome.failure "Network error: fetch failed".data)).2.store
      = emptyStore ∧
    (notifiesOnError "Network error: fetch failed".data = false →
      (syncCycle demoWatcher1 demoHandler emptyStore demoCfgDefault demoToken
          demoNow (UpdateOutcome.failure "Network error: fetch failed".data)).2.notifications
        = []) :=
  c2_amended_no_restore demoWatcher1 demoHandler emptyStore demoCfgDefault
    demoToken demoNow "Network error: fetch failed".data (by decide)
    (by decide) (by decide) (by decide)

/-! ### Claim C6 -/

/-- C6: on a failed incremental sync the status bar is set to error, and
a user-visible notification is shown iff the error message matches the
permanent classification — it contains 'not found' or 'Unauthorized';
representative transient messages (network errors, 5xx bodies, timeout)
are never surfaced, while 'not found' / 'Unauthorized' messages are. -/
theorem c6_error_classification (st : HandlerState) (store : Store)
    (cfg : DocudepthConfig) (tok : Option Str) (now : Str)
    (changes : List FileChange) (msg : Str)
    (hid : st.currentContextMapId.isSome = true) (hsync : cfg.autoSync = true)
    (htok : tok.isSome = true) :
    (handleFileChanges st store cfg tok now changes
        (UpdateOutcome.failure msg)).state.statusBar = StatusBarState.error ∧
    ((handleFileChanges st store cfg tok now changes
        (UpdateOutcome.failure msg)).notifications ≠ []
      ↔ notifiesOnError msg = true) ∧
    (notifiesOnError msg = true ↔
      (jsIncludes msg "not found".data = true
        ∨ jsIncludes msg "Unauthorized".data = true)) ∧
    notifiesOnError "Network error: fetch failed".data = false ∧
    notifiesOnError "HTTP 500".data = false ∧
    notifiesOnError "HTTP 503".data = false ∧
    notifiesOnError "Generation timed out".data = false ∧
    notifiesOnError "Context map not found".data = true ∧
    notifiesOnError "Unauthorized".data = true := by
  rw [handleFileChanges_failure st store cfg tok now changes msg hid hsync htok]
  refine ⟨rfl, ?_, ?_, by decide, by decide, by decide, by decide, by decide,
    by decide⟩
  · by_cases hb : notifiesOnError msg = true <;> simp [hb]
  · simp [notifiesOnError]

/-- C6, witnessed on a permanent 'not found' failure in a synced state. -/
theorem c6_witness :
    (handleFileChanges demoHandler emptyStore demoCfgDefault demoToken
        demoNow [demoChangeA]
        (UpdateOutcome.failure "Context map not found".data)).state.statusBar
      = StatusBarState.error ∧
    ((handleFileChanges demoHandler emptyStore demoCfgDefault demoToken
        demoNow [demoChangeA]
        (UpdateOutcome.failure "Context map not found".data)).notifications ≠ []
      ↔ notifiesOnError "Context map not found".data = true) ∧
    (notifiesOnError "Context map not found".data = true ↔
      (jsIncludes "Context map not found".data "not found".data = true
        ∨ jsIncludes "Context map not found".data "Unauthorized".data = true)) ∧
    notifiesOnError "Network error: fetch failed".data = false ∧
    notifiesOnError "HTTP 500".data = false ∧
    notifiesOnError "HTTP 503".data = false ∧
    notifiesOnError "Generation timed out".data = false ∧
    notifiesOnError "Context map not found".data = true ∧
    notifiesOnError "Unauthorized".data = true :=
  c6_error_classification demoHandler emptyStore demoCfgDefault demoToken
    demoNow [demoChangeA] "Context map not found".data (by decide) (by decide)
    (by decide)

/-! ### Helper lemmas about `pollLoop` -/

/-- Observing status 'completed' returns at once: one call, one progress
report, one sleep, and no further polling. -/
theorem pollLoop_completed (oracle : Nat → PollStep) (i rem : Nat)
    (s : StatusResponse) (hs : oracle i = PollStep.ok s)
    (hc : s.status = "completed".data) :
    pollLoop oracle i (rem + 1)
      = ⟨PollOutcome.returned, [(s.progress_percentage, s.progress_message)],
          1, pollIntervalMs⟩ := by
  simp [pollLoop, hs, hc]

/-- Observing status 'failed' throws the remote error message (or the
default) after reporting that poll's progress, and stops polling. -/
theorem pollLoop_failed (oracle : Nat → PollStep) (i rem : Nat)
    (s : StatusResponse) (hs : oracle i = PollStep.ok s)
    (hf : s.status = "failed".data) :
    pollLoop oracle i (rem + 1)
      = ⟨PollOutcome.threw (jsErrorOrDefault s.error_message),
          [(s.progress_percentage, s.progress_message)], 1, pollIntervalMs⟩ := by
  have hc : s.status ≠ "completed".data := by rw [hf]; decide
  simp [pollLoop, hs, hf, hc]

/-- A run in which every poll returns a non-terminal status exhausts its
remaining attempts, throws 'Generation timed out', and made one call and
one progress report per attempt. -/
theorem pollLoop_timeout (oracle : Nat → PollStep)
    (h : ∀ i, ∃ s, oracle i = PollStep.ok s ∧ s.status ≠ "completed".data ∧
      s.status ≠ "failed".data) :
    ∀ rem i,
      (pollLoop oracle i rem).outcome
          = PollOutcome.threw "Generation timed out".data ∧
      (pollLoop oracle i rem).calls = rem ∧
      (pollLoop oracle i rem).reports.length = rem := by
  intro rem
  induction rem with
  | zero => intro i; exact ⟨rfl, rfl, rfl⟩
  | succ n ih =>
    intro i
    obtain ⟨s, hs, h1, h2⟩ := h i
    obtain ⟨iho, ihc, ihr⟩ := ih (i + 1)
    simp [pollLoop, hs, h1, h2, iho, ihc, ihr]

/-- As long as no poll call rejects, a progress report is made for every
`getStatus` call, whether or not the status changed. -/
theorem pollLoop_reports_every_poll (oracle : Nat → PollStep)
    (h : ∀ i, ∃ s, oracle i = PollStep.ok s) :
    ∀ rem i,
      (pollLoop oracle i rem).reports.length = (pollLoop oracle i rem).calls := by
  intro rem
  induction rem with
  | zero => intro i; rfl
  | succ n ih =>
    intro i
    obtain ⟨s, hs⟩ := h i
    by_cases hc : (s.status == "completed".data) = true
    · simp [pollLoop, hs, hc]
    · by_cases hf : (s.status == "failed".data) = true
      · simp [pollLoop, hs, hc, hf]
      · simp [pollLoop, hs, hc, hf, ih (i + 1)]

/-! ### Claim C7 -/

/-- The poll sequence [Processing, Processing, Processing, Completed]. -/
def seqPPPC : Nat → PollStep := fun i =>
  if i < 3 then PollStep.ok processingStatus else PollStep.ok completedStatus

/-- A poll oracle that reports 'processing' forever. -/
def allProcessing : Nat → PollStep := fun _ => PollStep.ok processingStatus

/-- A poll oracle whose first status is a terminal failure with a remote
error message. -/
def failedOracle : Nat → PollStep := fun _ =>
  PollStep.ok ⟨"failed".data, 75, "Generating docs".data,
    some "Analysis crashed".data⟩

/-- C7: the poller sleeps 2000 ms before each of at most 900 attempts;
on the sequence [Processing, Processing, Processing, Completed] it
returns success after the 4th poll (4 calls, 4 progress reports, 8
seconds slept) and stops; a poll reporting 'completed' always returns at
once; a poll reporting 'failed' throws the remote error message; an
all-non-terminal run throws the distinct 'Generation timed out' after
exactly 900 calls; and, absent rejections, progress is reported on every
poll regardless of whether the status changed. -/
theorem c7_poller_contract (oracle : Nat → PollStep) :
    pollIntervalMs = 2000 ∧
    pollMaxAttempts = 900 ∧
    pollForCompletion seqPPPC
      = ⟨PollOutcome.returned,
          [ (50, "Analyzing codebase...".data)
          , (50, "Analyzing codebase...".data)
          , (50, "Analyzing codebase...".data)
          , (100, "Done".data) ], 4, 8000⟩ ∧
    (∀ i rem s, oracle i = PollStep.ok s → s.status = "completed".data →
      pollLoop oracle i (rem + 1)
        = ⟨PollOutcome.returned,
            [(s.progress_percentage, s.progress_message)], 1, pollIntervalMs⟩) ∧
    (∀ i rem s, oracle i = PollStep.ok s → s.status = "failed".data →
      pollLoop oracle i (rem + 1)
        = ⟨PollOutcome.threw (jsErrorOrDefault s.error_message),
            [(s.progress_percentage, s.progress_message)], 1,
            pollIntervalMs⟩) ∧
    ((∀ i, ∃ s, oracle i = PollStep.ok s ∧ s.status ≠ "completed".data ∧
        s.status ≠ "failed".data) →
      (pollForCompletion oracle).outcome
          = PollOutcome.threw "Generation timed out".data ∧
      (pollForCompletion oracle).calls = 900 ∧
      (pollForCompletion oracle).reports.length = 900) ∧
    ((∀ i, ∃ s, oracle i = PollStep.ok s) →
      ∀ rem i, (pollLoop oracle i rem).reports.length
          = (pollLoop oracle i rem).calls) := by
  refine ⟨rfl, rfl, by decide, ?_, ?_, ?_, ?_⟩
  · intro i rem s hs hc
    exact pollLoop_completed oracle i rem s hs hc
  · intro i rem s hs hf
    exact pollLoop_failed oracle i rem s hs hf
  · intro h
    exact pollLoop_timeout oracle h pollMaxAttempts 0
  · intro h
    exact pollLoop_reports_every_poll oracle h

/-- C7, witnessed on the concrete oracles: completion at attempt 3 of
`seqPPPC`, the failing oracle's remote message, the all-processing
timeout after 900 calls, and one report per call on the timeout run. -/
theorem c7_witness :
    pollLoop seqPPPC 3 (896 + 1)
      = ⟨PollOutcome.returned, [(100, "Done".data)], 1, pollIntervalMs⟩ ∧
    pollLoop failedOracle 0 (899 + 1)
      = ⟨PollOutcome.threw (jsErrorOrDefault (some "Analysis crashed".data)),
          [(75, "Generating docs".data)], 1, pollIntervalMs⟩ ∧
    (pollForCompletion allProcessing).outcome
        = PollOutcome.threw "Generation timed out".data ∧
    (pollForCompletion allProcessing).calls = 900 ∧
    (pollLoop allProcessing 0 900).reports.length
        = (pollLoop allProcessing 0 900).calls :=
  ⟨(c7_poller_contract seqPPPC).2.2.2.1 3 896 completedStatus (by decide) rfl,
    (c7_poller_contract failedOracle).2.2.2.2.1 0 899
      ⟨"failed".data, 75, "Generating docs".data, some "Analysis crashed".data⟩
      rfl rfl,
    ((c7_poller_contract allProcessing).2.2.2.2.2.1
      (fun _ => ⟨processingStatus, rfl, by decide, by decide⟩)).1,
    ((c7_poller_contract allProcessing).2.2.2.2.2.1
      (fun _ => ⟨processingStatus, rfl, by decide, by decide⟩)).2.1,
    (c7_poller_contract allProcessing).2.2.2.2.2.2
      (fun _ => ⟨processingStatus, rfl⟩) 900 0⟩

/-! ### Pending-map invariants -/

/-- Every pending entry's `FileChange` records the path it is keyed by. -/
def pathConsistent (m : List (Str × FileChange)) : Prop :=
  ∀ p ∈ m, (Prod.snd p).path = Prod.fst p

/-- The pending map has at most one entry per path. -/
def keysNodup (m : List (Str × FileChange)) : Prop :=
  (mapKeys m).Nodup

/-- Well-formedness of the watcher's pending map. -/
def WatcherWF (st : WatcherState) : Prop :=
  keysNodup st.pendingChanges ∧ pathConsistent st.pendingChanges

/-- `mapSet` on a key absent from the tail of a cons skips the head. -/
theorem mapSet_cons_ne (a : Str × FileChange) (t : List (Str × FileChange))
    (k : Str) (v : FileChange) (ha : ¬a.1 = k) :
    mapSet (a :: t) k v = a :: mapSet t k v := by
  by_cases h : t.any (fun p => p.1 = k) = true <;> simp [mapSet, ha, h]

/-- `mapSet` on the key of the head replaces the head in place, provided
the key does not also occur later. -/
theorem mapSet_cons_eq (a : Str × FileChange) (t : List (Str × FileChange))
    (k : Str) (v : FileChange) (ha : a.1 = k) (hk : k ∉ mapKeys t) :
    mapSet (a :: t) k v = (k, v) :: t := by
  have hany : (a :: t).any (fun p => p.1 = k) = true := by
    simp [List.any_cons, ha]
  unfold mapSet
  rw [if_pos hany]
  simp only [List.map_cons, if_pos ha]
  congr 1
  have : ∀ q ∈ t, (if q.1 = k then (k, v) else q) = q := by
    intro q hq
    rw [if_neg]
    intro hqk
    exact hk (List.mem_map.mpr ⟨q, hq, hqk⟩)
  rw [List.map_congr_left this]
  simp

/-- `mapSet` never produces an empty map. -/
theorem mapSet_ne_nil (m : List (Str × FileChange)) (k : Str)
    (v : FileChange) : mapSet m k v ≠ [] := by
  unfold mapSet
  split
  · next h =>
    intro hc
    rw [List.map_eq_nil_iff] at hc
    subst hc
    exact absurd h (by simp)
  · intro hc
    exact absurd (List.append_eq_nil.mp hc).2 (by simp)

/-- `mapSet` preserves the one-entry-per-path invariant. -/
theorem keysNodup_mapSet (m : List (Str × FileChange)) (k : Str)
    (v : FileChange) (h : keysNodup m) : keysNodup (mapSet m k v) := by
  unfold keysNodup mapSet
  by_cases hmem : m.any (fun p => p.1 = k) = true
  · rw [if_pos hmem]
    unfold mapKeys
    rw [List.map_map]
    have : ∀ p ∈ m, (Prod.fst ∘ fun p => if p.1 = k then (k, v) else p) p
        = Prod.fst p := by
      intro p _
      by_cases hp : p.1 = k <;> simp [hp]
    rw [List.map_congr_left this]
    exact h
  · rw [if_neg hmem]
    have hk : k ∉ mapKeys m := by
      intro hkm
      obtain ⟨q, hq, hqk⟩ := List.mem_map.mp hkm
      apply hmem
      exact List.any_eq_true.mpr ⟨q, hq, by simp [hqk]⟩
    unfold mapKeys
    rw [List.map_append]
    simp only [List.map_cons, List.map_nil]
    refine List.Nodup.append h (List.nodup_singleton k) ?_
    intro a ha hb
    rw [List.mem_singleton] at hb
    subst hb
    exact hk ha

/-- `mapSet` preserves path consistency when the new value records its
key. -/
theorem pathConsistent_mapSet (m : List (Str × FileChange)) (k : Str)
    (v : FileChange) (h : pathConsistent m) (hv : v.path = k) :
    pathConsistent (mapSet m k v) := by
  unfold mapSet
  by_cases hmem : m.any (fun p => p.1 = k) = true
  · rw [if_pos hmem]
    intro p hp
    obtain ⟨q, hq, hfq⟩ := List.mem_map.mp hp
    by_cases hqk : q.1 = k
    · rw [if_pos hqk] at hfq
      rw [← hfq]
      exact hv
    · rw [if_neg hqk] at hfq
      rw [← hfq]
      exact h q hq
  · rw [if_neg hmem]
    intro p hp
    rcases List.mem_append.mp hp with h1 | h2
    · exact h p h1
    · rw [List.mem_singleton.mp h2]
      exact hv

/-- In a well-formed map, after `mapSet m k v` the values whose path is
`k` are exactly `[v]`. -/
theorem filter_values_mapSet (m : List (Str × FileChange)) (k : Str)
    (v : FileChange) (hnd : keysNodup m) (hpc : pathConsistent m)
    (hv : v.path = k) :
    (mapValues (mapSet m k v)).filter (fun fc => fc.path == k) = [v] := by
  induction m with
  | nil =>
    simp [mapSet, mapValues, List.filter, hv]
  | cons a t ih =>
    by_cases ha : a.1 = k
    · have hk : k ∉ mapKeys t := by
        have := (List.nodup_cons.mp hnd).1
        rw [ha] at this
        exact this
      rw [mapSet_cons_eq a t k v ha hk]
      unfold mapValues
      rw [List.map_cons]
      have hrest : (mapValues t).filter (fun fc => fc.path == k) = [] := by
        rw [List.filter_eq_nil_iff]
        intro fc hfc
        obtain ⟨q, hq, hfq⟩ := List.mem_map.mp hfc
        have hqp : q.2.path = q.1 := hpc q (List.mem_cons_of_mem a hq)
        have hqk : ¬q.1 = k := fun hc =>
          hk (List.mem_map.mpr ⟨q, hq, hc⟩)
        rw [← hfq]
        simp [hqp, hqk]
      have hvk : ((v.path == k) : Bool) = true := by simp [hv]
      simp only [List.filter_cons, hvk, if_pos]
      exact congrArg (v :: ·) hrest
    · rw [mapSet_cons_ne a t k v ha]
      have hnd' : keysNodup t := (List.nodup_cons.mp hnd).2
      have hpc' : pathConsistent t := fun q hq =>
        hpc q (List.mem_cons_of_mem a hq)
      have hpa : a.2.path = a.1 := hpc a (List.mem_cons_self a t)
      have hdrop : ((a.2.path == k) : Bool) = false := by
        simp [hpa, ha]
      unfold mapValues
      rw [List.map_cons]
      simp only [List.filter_cons, hdrop]
      exact ih hnd' hpc'

/-- An ignored path is never recorded by `handleSave`. -/
theorem handleSave_ignored (st : WatcherState) (p c : Str)
    (hig : shouldIgnore p = true) : handleSave st p c = st := by
  unfold handleSave
  rw [if_pos hig]

/-- An oversized save is silently skipped. -/
theorem handleSave_oversize (st : WatcherState) (p c : Str)
    (hig : shouldIgnore p = false) (hsz : c.length > 100 * 1024) :
    handleSave st p c = st := by
  unfold handleSave
  rw [if_neg (by simp [hig]), if_pos hsz]

/-- A qualifying save records a `modified` change under its path. -/
theorem handleSave_records (st : WatcherState) (p c : Str)
    (hig : shouldIgnore p = false) (hsz : ¬c.length > 100 * 1024) :
    handleSave st p c = scheduleCallback
      { st with pendingChanges :=
          (mapSet st.pendingChanges p ⟨p, ChangeType.modified, some c⟩) } := by
  unfold handleSave
  rw [if_neg (by simp [hig]), if_neg hsz]

/-- An ignored path is never recorded by `handleFileSystemChange`. -/
theorem handleFileSystemChange_ignored (st : WatcherState) (p : Str)
    (ct : FsChangeKind) (r : Option Str) (hig : shouldIgnore p = true) :
    handleFileSystemChange st p ct r = st := by
  unfold handleFileSystemChange
  rw [if_pos hig]

/-- A failed content read skips the create event. -/
theorem handleFileSystemChange_read_failed (st : WatcherState) (p : Str)
    (hig : shouldIgnore p = false) :
    handleFileSystemChange st p FsChangeKind.added none = st := by
  unfold handleFileSystemChange
  rw [if_neg (by simp [hig])]

/-- An oversized created file is silently skipped. -/
theorem handleFileSystemChange_added_oversize (st : WatcherState) (p : Str)
    (content : Str) (hig : shouldIgnore p = false)
    (hsz : content.length > 100 * 1024) :
    handleFileSystemChange st p FsChangeKind.added (some content) = st := by
  unfold handleFileSystemChange
  rw [if_neg (by simp [hig])]
  simp only [if_pos hsz]

/-- A qualifying create records an `added` change under its path. -/
theorem handleFileSystemChange_added (st : WatcherState) (p content : Str)
    (hig : shouldIgnore p = false) (hsz : ¬content.length > 100 * 1024) :
    handleFileSystemChange st p FsChangeKind.added (some content)
      = scheduleCallback
        { st with pendingChanges :=
            (mapSet st.pendingChanges p ⟨p, ChangeType.added, some content⟩) } := by
  unfold handleFileSystemChange
  rw [if_neg (by simp [hig])]
  simp only [if_neg hsz]

/-- A qualifying delete records a `deleted` change, with no content,
under its path. -/
theorem handleFileSystemChange_deleted (st : WatcherState) (p : Str)
    (r : Option Str) (hig : shouldIgnore p = false) :
    handleFileSystemChange st p FsChangeKind.deleted r
      = scheduleCallback
        { st with pendingChanges :=
            (mapSet st.pendingChanges p ⟨p, ChangeType.deleted, none⟩) } := by
  unfold handleFileSystemChange
  rw [if_neg (by simp [hig])]

/-- `handleSave` preserves well-formedness. -/
theorem watcherWF_handleSave (st : WatcherState) (p c : Str)
    (h : WatcherWF st) : WatcherWF (handleSave st p c) := by
  by_cases hig : shouldIgnore p = true
  · rw [handleSave_ignored st p c hig]; exact h
  · have hig' : shouldIgnore p = false := by simpa using hig
    by_cases hsz : c.length > 100 * 1024
    · rw [handleSave_oversize st p c hig' hsz]; exact h
    · rw [handleSave_records st p c hig' hsz]
      exact ⟨keysNodup_mapSet _ _ _ h.1, pathConsistent_mapSet _ _ _ h.2 rfl⟩

/-- `handleFileSystemChange` preserves well-formedness. -/
theorem watcherWF_handleFileSystemChange (st : WatcherState) (p : Str)
    (ct : FsChangeKind) (r : Option Str) (h : WatcherWF st) :
    WatcherWF (handleFileSystemChange st p ct r) := by
  by_cases hig : shouldIgnore p = true
  · rw [handleFileSystemChange_ignored st p ct r hig]; exact h
  · have hig' : shouldIgnore p = false := by simpa using hig
    cases ct with
    | added =>
      cases r with
      | none => rw [handleFileSystemChange_read_failed st p hig']; exact h
      | some content =>
        by_cases hsz : content.length > 100 * 1024
        · rw [handleFileSystemChange_added_oversize st p content hig' hsz]
          exact h
        · rw [handleFileSystemChange_added st p content hig' hsz]
          exact
            ⟨keysNodup_mapSet _ _ _ h.1, pathConsistent_mapSet _ _ _ h.2 rfl⟩
    | deleted =>
      rw [handleFileSystemChange_deleted st p r hig']
      exact ⟨keysNodup_mapSet _ _ _ h.1, pathConsistent_mapSet _ _ _ h.2 rfl⟩

/-! ### Claim C8 -/

/-- C8: a later qualifying event for a path overwrites the earlier
pending record — both handlers preserve the at-most-one-entry-per-path
invariant — and a path receiving Modified (a save) then Deleted before
any flush yields a flush batch whose entries for that path are exactly
one record of kind Deleted with no content. -/
theorem c8_last_write_wins (st : WatcherState) (p c : Str)
    (ct : FsChangeKind) (r r2 : Option Str) (hwf : WatcherWF st) :
    WatcherWF (handleSave st p c) ∧
    WatcherWF (handleFileSystemChange st p ct r) ∧
    (shouldIgnore p = false → ¬c.length > 100 * 1024 →
      (flushChangesRun (handleFileSystemChange (handleSave st p c) p
          FsChangeKind.deleted r2)).2
        = some (mapValues (handleFileSystemChange (handleSave st p c) p
            FsChangeKind.deleted r2).pendingChanges) ∧
      (mapValues (handleFileSystemChange (handleSave st p c) p
          FsChangeKind.deleted r2).pendingChanges).filter
            (fun fc => fc.path == p)
        = [⟨p, ChangeType.deleted, none⟩]) := by
  refine ⟨watcherWF_handleSave st p c hwf,
    watcherWF_handleFileSystemChange st p ct r hwf, ?_⟩
  intro hig hsize
  have hwf1 : WatcherWF (handleSave st p c) := watcherWF_handleSave st p c hwf
  rw [handleSave_records st p c hig hsize] at hwf1 ⊢
  rw [handleFileSystemChange_deleted _ p r2 hig]
  have hfilter := filter_values_mapSet
    (mapSet st.pendingChanges p ⟨p, ChangeType.modified, some c⟩) p
    ⟨p, ChangeType.deleted, none⟩ hwf1.1 hwf1.2 rfl
  refine ⟨?_, hfilter⟩
  unfold flushChangesRun
  rw [if_neg]
  simp [scheduleCallback, List.length_eq_zero, mapSet_ne_nil]

/-- C8, witnessed on a freshly started watcher receiving a save and then
a deletion of `a.ts`. -/
theorem c8_witness :
    WatcherWF (handleSave ⟨true, true, true, [], true⟩ "a.ts".data "A".data) ∧
    WatcherWF (handleFileSystemChange ⟨true, true, true, [], true⟩ "a.ts".data
      FsChangeKind.added (some "A".data)) ∧
    (shouldIgnore "a.ts".data = false → ¬("A".data).length > 100 * 1024 →
      (flushChangesRun (handleFileSystemChange
          (handleSave ⟨true, true, true, [], true⟩ "a.ts".data "A".data)
          "a.ts".data FsChangeKind.deleted none)).2
        = some (mapValues (handleFileSystemChange
            (handleSave ⟨true, true, true, [], true⟩ "a.ts".data "A".data)
            "a.ts".data FsChangeKind.deleted none).pendingChanges) ∧
      (mapValues (handleFileSystemChange
          (handleSave ⟨true, true, true, [], true⟩ "a.ts".data "A".data)
          "a.ts".data FsChangeKind.deleted none).pendingChanges).filter
            (fun fc => fc.path == "a.ts".data)
        = [⟨"a.ts".data, ChangeType.deleted, none⟩]) :=
  c8_last_write_wins ⟨true, true, true, [], true⟩ "a.ts".data "A".data
    FsChangeKind.added (some "A".data) none
    ⟨List.nodup_nil, fun q hq => absurd hq (List.not_mem_nil q)⟩

/-! ### String lemmas for the ignore list -/

/-- A list starts with its own prefix. -/
theorem jsStartsWith_append (p t : Str) : jsStartsWith (p ++ t) p = true := by
  induction p with
  | nil => cases t <;> rfl
  | cons c cs ih => simp [jsStartsWith, ih]

/-- Extending a list on the right preserves its prefixes. -/
theorem jsStartsWith_extend (s p t : Str) (h : jsStartsWith s p = true) :
    jsStartsWith (s ++ t) p = true := by
  induction p generalizing s with
  | nil => simp [jsStartsWith]
  | cons x xs ih =>
    cases s with
    | nil => simp [jsStartsWith] at h
    | cons c cs =>
      simp [jsStartsWith] at h ⊢
      exact ⟨h.1, ih cs h.2⟩

/-- A list ends with its own suffix. -/
theorem jsEndsWith_append (a suf : Str) : jsEndsWith (a ++ suf) suf = true := by
  unfold jsEndsWith
  rw [List.reverse_append]
  exact jsStartsWith_append suf.reverse a.reverse

/-- Extending a list on the left preserves its suffixes. -/
theorem jsEndsWith_append_left (a s suf : Str) (h : jsEndsWith s suf = true) :
    jsEndsWith (a ++ s) suf = true := by
  unfold jsEndsWith at h ⊢
  rw [List.reverse_append]
  exact jsStartsWith_extend s.reverse suf.reverse a.reverse h

/-- A prefix occurrence is an occurrence. -/
theorem jsIncludes_of_startsWith (s sub : Str)
    (h : jsStartsWith s sub = true) : jsIncludes s sub = true := by
  cases s with
  | nil => simpa [jsIncludes] using h
  | cons c t => simp [jsIncludes, h]

/-- An occurrence in the tail is an occurrence. -/
theorem jsIncludes_cons (c : Char) (t sub : Str)
    (h : jsIncludes t sub = true) : jsIncludes (c :: t) sub = true := by
  simp [jsIncludes, h]

/-- Extending a list on the left preserves occurrences. -/
theorem jsIncludes_append_left (a s sub : Str)
    (h : jsIncludes s sub = true) : jsIncludes (a ++ s) sub = true := by
  induction a with
  | nil => simpa using h
  | cons c cs ih => exact jsIncludes_cons c (cs ++ s) sub ih

/-- A path without backslashes is unchanged by normalization. -/
theorem normalizeSlashes_eq_self (s : Str) (h : ¬('\\' ∈ s)) :
    normalizeSlashes s = s := by
  induction s with
  | nil => rfl
  | cons c t ih =>
    have hc : ¬c = '\\' := fun hcc => h (by rw [hcc]; exact List.mem_cons_self _ _)
    have ht : ¬('\\' ∈ t) := fun htt => h (List.mem_cons_of_mem c htt)
    unfold normalizeSlashes
    rw [List.map_cons, if_neg (by simpa using hc)]
    exact congrArg (c :: ·) (ih ht)

/-! ### Whole-segment matching -/

/-- Join path segments with '/' separators. -/
def joinSegs : List Str → Str
  | [] => []
  | [s] => s
  | s :: s2 :: rest => s ++ '/' :: joinSegs (s2 :: rest)

/-- The directory-name entries of `ignoredPatterns` (the non-wildcard,
non-filename ones the spec describes as excluded directory segments). -/
def dirPatterns : List Str :=
  [ "node_modules".data
  , ".git".data
  , ".docudepth".data
  , "dist".data
  , "build".data
  , "out".data
  , ".next".data
  , ".nuxt".data
  , "__pycache__".data
  , ".pytest_cache".data
  , "venv".data
  , ".venv".data
  , "target".data
  , ".idea".data
  , ".vscode".data ]

/-- Every directory pattern is in the ignore list and is not a wildcard. -/
theorem dirPatterns_subset :
    ∀ p ∈ dirPatterns, p ∈ ignoredPatterns ∧ ¬p.head? = some '*' := by
  decide

/-- If a pattern occurs as a whole segment of a joined path, one of the
four positional tests of the directory branch succeeds. -/
theorem dirPattern_hit (pattern : Str) (segs : List Str)
    (hmem : pattern ∈ segs) :
    (jsStartsWith (joinSegs segs) (pattern ++ ['/'])
      || joinSegs segs == pattern
      || jsIncludes (joinSegs segs) ('/' :: (pattern ++ ['/']))
      || jsEndsWith (joinSegs segs) ('/' :: pattern)) = true := by
  induction segs with
  | nil => cases hmem
  | cons s rest ih =>
    rcases List.mem_cons.mp hmem with heq | hmem2
    · subst heq
      cases rest with
      | nil => simp [joinSegs]
      | cons r rs =>
        have hstart : jsStartsWith (joinSegs (pattern :: r :: rs))
            (pattern ++ ['/']) = true := by
          have h2 : joinSegs (pattern :: r :: rs)
              = (pattern ++ ['/']) ++ joinSegs (r :: rs) := by
            simp [joinSegs]
          rw [h2]
          exact jsStartsWith_append _ _
        simp [hstart]
    · cases rest with
      | nil => cases hmem2
      | cons r rs =>
        have ihh := ih hmem2
        have hjoin : joinSegs (s :: r :: rs) = s ++ '/' :: joinSegs (r :: rs) := by
          simp [joinSegs]
        simp only [Bool.or_eq_true] at ihh
        rcases ihh with ((h1 | h2) | h3) | h4
        · have hinc : jsIncludes (s ++ '/' :: joinSegs (r :: rs))
              ('/' :: (pattern ++ ['/'])) = true := by
            apply jsIncludes_append_left
            apply jsIncludes_of_startsWith
            simp [jsStartsWith, h1]
          rw [hjoin]
          simp [hinc]
        · have hJ : joinSegs (r :: rs) = pattern := by simpa using h2
          have hend : jsEndsWith (s ++ '/' :: joinSegs (r :: rs))
              ('/' :: pattern) = true := by
            rw [hJ]
            exact jsEndsWith_append s ('/' :: pattern)
          rw [hjoin]
          simp [hend]
        · have hinc : jsIncludes (s ++ '/' :: joinSegs (r :: rs))
              ('/' :: (pattern ++ ['/'])) = true := by
            apply jsIncludes_append_left
            exact jsIncludes_cons '/' _ _ h3
          rw [hjoin]
          simp [hinc]
        · have hend : jsEndsWith (s ++ '/' :: joinSegs (r :: rs))
              ('/' :: pattern) = true := by
            have h2 : s ++ '/' :: joinSegs (r :: rs)
                = (s ++ ['/']) ++ joinSegs (r :: rs) := by simp
            rw [h2]
            exact jsEndsWith_append_left (s ++ ['/']) _ _ h4
          rw [hjoin]
          simp [hend]

/-- A path with an excluded directory name as a whole segment is
ignored. -/
theorem shouldIgnore_of_dir_segment (pattern : Str) (segs : List Str)
    (hp : pattern ∈ dirPatterns) (hmem : pattern ∈ segs)
    (hnb : ¬('\\' ∈ joinSegs segs)) :
    shouldIgnore (joinSegs segs) = true := by
  unfold shouldIgnore
  rw [normalizeSlashes_eq_self _ hnb]
  apply List.any_eq_true.mpr
  refine ⟨pattern, (dirPatterns_subset pattern hp).1, ?_⟩
  unfold matchesPattern
  rw [if_neg (dirPatterns_subset pattern hp).2]
  exact dirPattern_hit pattern segs hmem

/-- A path ending in `.log` or `.lock` is ignored via the wildcard
patterns. -/
theorem shouldIgnore_of_wildcard (p2 : Str) (hnb : ¬('\\' ∈ p2))
    (h : jsEndsWith p2 ".log".data = true ∨ jsEndsWith p2 ".lock".data = true) :
    shouldIgnore p2 = true := by
  unfold shouldIgnore
  rw [normalizeSlashes_eq_self _ hnb]
  apply List.any_eq_true.mpr
  rcases h with h | h
  · refine ⟨"*.log".data, by decide, ?_⟩
    unfold matchesPattern
    rw [if_pos (by decide)]
    exact h
  · refine ⟨"*.lock".data, by decide, ?_⟩
    unfold matchesPattern
    rw [if_pos (by decide)]
    exact h

/-! ### Claim C9 -/

/-- C9: for every path containing an excluded directory name as a whole
path segment, and for every path with an excluded wildcard suffix
(`.log`, `.lock`), no PendingChange is ever created, regardless of event
kind (save, create or delete); matching is by whole segment, not
substring: `distro/app.ts` is not excluded while `dist/app.ts` is. -/
theorem c9_filtering (st : WatcherState) (pattern c : Str)
    (segs : List Str) (ct : FsChangeKind) (r : Option Str)
    (hp : pattern ∈ dirPatterns) (hmem : pattern ∈ segs)
    (hnb : ¬('\\' ∈ joinSegs segs)) :
    handleSave st (joinSegs segs) c = st ∧
    handleFileSystemChange st (joinSegs segs) ct r = st ∧
    (∀ p2, ¬('\\' ∈ p2) →
      (jsEndsWith p2 ".log".data = true ∨ jsEndsWith p2 ".lock".data = true) →
      handleSave st p2 c = st ∧ handleFileSystemChange st p2 ct r = st) ∧
    shouldIgnore "distro/app.ts".data = false ∧
    shouldIgnore "dist/app.ts".data = true := by
  have hig := shouldIgnore_of_dir_segment pattern segs hp hmem hnb
  refine ⟨handleSave_ignored st _ c hig,
    handleFileSystemChange_ignored st _ ct r hig, ?_, by decide, by decide⟩
  intro p2 hnb2 hw
  have hig2 := shouldIgnore_of_wildcard p2 hnb2 hw
  exact ⟨handleSave_ignored st p2 c hig2,
    handleFileSystemChange_ignored st p2 ct r hig2⟩

/-- C9, witnessed on `src/node_modules/index.js` (segment match) and
`debug.log` (wildcard match) against a freshly started watcher. -/
theorem c9_witness :
    handleSave ⟨true, true, true, [], true⟩
        (joinSegs ["src".data, "node_modules".data, "index.js".data])
        "A".data
      = ⟨true, true, true, [], true⟩ ∧
    handleFileSystemChange ⟨true, true, true, [], true⟩
        (joinSegs ["src".data, "node_modules".data, "index.js".data])
        FsChangeKind.added (some "A".data)
      = ⟨true, true, true, [], true⟩ ∧
    (handleSave ⟨true, true, true, [], true⟩ "debug.log".data "A".data
        = ⟨true, true, true, [], true⟩ ∧
      handleFileSystemChange ⟨true, true, true, [], true⟩ "debug.log".data
        FsChangeKind.added (some "A".data)
      = ⟨true, true, true, [], true⟩) ∧
    shouldIgnore "distro/app.ts".data = false ∧
    shouldIgnore "dist/app.ts".data = true :=
  ⟨(c9_filtering ⟨true, true, true, [], true⟩ "node_modules".data "A".data
      ["src".data, "node_modules".data, "index.js".data] FsChangeKind.added
      (some "A".data) (by decide) (by decide) (by decide)).1,
    (c9_filtering ⟨true, true, true, [], true⟩ "node_modules".data "A".data
      ["src".data, "node_modules".data, "index.js".data] FsChangeKind.added
      (some "A".data) (by decide) (by decide) (by decide)).2.1,
    (c9_filtering ⟨true, true, true, [], true⟩ "node_modules".data "A".data
      ["src".data, "node_modules".data, "index.js".data] FsChangeKind.added
      (some "A".data) (by decide) (by decide) (by decide)).2.2.1
      "debug.log".data (by decide) (Or.inl (by decide)),
    (c9_filtering ⟨true, true, true, [], true⟩ "node_modules".data "A".data
      ["src".data, "node_modules".data, "index.js".data] FsChangeKind.added
      (some "A".data) (by decide) (by decide) (by decide)).2.2.2.1,
    (c9_filtering ⟨true, true, true, [], true⟩ "node_modules".data "A".data
      ["src".data, "node_modules".data, "index.js".data] FsChangeKind.added
      (some "A".data) (by decide) (by decide) (by decide)).2.2.2.2⟩

end DocuDepth
